import Mathlib

/-!
Verification development for the DVD-motor-show motion controller.

The source is an Arduino sketch (AccelStepper variant, plus a fixed-speed
fallback sketch).  The sketch itself is embedded directly: the serial
dispatcher `loop`, the three-phase `moveMotorSequence`, the constants
`stepsPerRevolution`, `DEFAULT_MAX_SPEED`, `DEFAULT_ACCELERATION`, the status
strings and the 3000 ms dwell.  The AccelStepper / Stepper library bodies are
not part of the repository, so the step engine is modelled from the spec's
design-level algorithm (section 4.3): maintain `currentStep` and
`stepsToGo = target - currentStep`; on each emitted step advance `currentStep`
by the sign of `stepsToGo`, then accelerate while `stepsToGo` exceeds the
number of steps needed to stop from the current speed, otherwise decelerate,
clamping the speed to `maxSpeed`.

Speed is carried as a quantum count `k`: after `k` net accelerating steps at
constant acceleration `a`, the instantaneous speed `v` satisfies
`v ^ 2 = 2 * a * k`, and the number of steps needed to decelerate to rest is
exactly `k` (`v ^ 2 / (2 * a)`).  The speed ceiling `maxSpeed` corresponds to
the quantum ceiling `kmax = maxSpeed ^ 2 / (2 * a)`; with the shipped values
`maxSpeed = 400`, `a = 200` this gives `kmax = 400` exactly.

Serial output, step pulses and the dwell are recorded in an event trace, so
that the observable behaviour of the two sketches can be compared.
-/

/-- Steps per one full revolution (`const long stepsPerRevolution = 1536`). -/
def stepsPerRevolution : Int := 1536

/-- `const float DEFAULT_MAX_SPEED = 400.0` (steps per second). -/
def DEFAULT_MAX_SPEED : ℚ := 400

/-- `const float DEFAULT_ACCELERATION = 200.0` (steps per second squared). -/
def DEFAULT_ACCELERATION : ℚ := 200

/-- Speed-quantum ceiling corresponding to `DEFAULT_MAX_SPEED` at
`DEFAULT_ACCELERATION`: `kmax = maxSpeed ^ 2 / (2 * acceleration) = 400`. -/
def KMAX : Nat := 400

/-- The dwell between the outbound and return legs: `delay(3000)`. -/
def dwellMs : Nat := 3000

/-- Status line printed by `loop` on receiving the command byte. -/
def msgReceived : String := "M received, starting sequence..."

/-- Status line printed by `loop` after the sequence returns. -/
def msgComplete : String := "Sequence complete."

/-- Status line printed before the outbound move. -/
def msgMoving : String := "Moving to target..."

/-- Status line printed before the dwell. -/
def msgWaiting : String := "Waiting..."

/-- Status line printed before the return move. -/
def msgReturning : String := "Returning to base..."

/-- Observable events at the controller's boundary: a serial status line, one
step pulse in a given direction (`1` forward, `-1` backward), or a blocking
dwell of the given number of milliseconds. -/
inductive Event where
  | log (line : String)
  | stepPulse (dir : Int)
  | dwell (ms : Nat)
deriving DecidableEq, Repr

/-- Modelled from the spec: the stepper state kept by the motion-profile
generator (the AccelStepper library body is not in the repository).  The spec
prescribes a current step count, a target step count, and an instantaneous
speed; the speed is carried as the quantum `k` with `speed ^ 2 = 2 * a * k`,
so `k` is also the number of steps needed to decelerate to rest. -/
structure AccelStepper where
  currentStep : Int
  targetStep : Int
  k : Nat
deriving DecidableEq, Repr

namespace AccelStepper

/-- `stepper.distanceToGo()`: signed distance from the current position to the
target (`stepsToGo = target - currentStep` in the spec's wording). -/
def distanceToGo (s : AccelStepper) : Int := s.targetStep - s.currentStep

/-- `stepper.moveTo(absolute)`: set the target position. -/
def moveTo (s : AccelStepper) (absolute : Int) : AccelStepper :=
  { s with targetStep := absolute }

/-- Modelled from the spec: one call of the non-blocking step function
(`stepper.run()`).  If the target is reached it does nothing; otherwise it
emits one step pulse toward the target and recomputes the speed quantum:
accelerate (clamped at `kmax`) while the remaining distance exceeds the
stopping distance `k`, otherwise decelerate. -/
def runE (kmax : Nat) (s : AccelStepper) : AccelStepper × List Event :=
  if s.targetStep - s.currentStep = 0 then (s, [])
  else
    let dir : Int := if 0 < s.targetStep - s.currentStep then 1 else -1
    let pos : Int := s.currentStep + dir
    let d : Nat := (s.targetStep - pos).natAbs
    let k : Nat := if s.k < d then min (s.k + 1) kmax else s.k - 1
    (⟨pos, s.targetStep, k⟩, [Event.stepPulse dir])

/-- `n` successive calls of the step function, collecting the emitted
pulses. -/
def runLoop (kmax : Nat) : Nat → AccelStepper → AccelStepper × List Event
  | 0, s => (s, [])
  | n + 1, s =>
      ((runLoop kmax n (runE kmax s).1).1,
       (runE kmax s).2 ++ (runLoop kmax n (runE kmax s).1).2)

/-- The busy-wait loop `while (stepper.distanceToGo() != 0) stepper.run();`.
Each non-no-op call moves one step closer, so the loop runs exactly
`|distanceToGo|` iterations. -/
def runToTarget (kmax : Nat) (s : AccelStepper) : AccelStepper × List Event :=
  runLoop kmax s.distanceToGo.natAbs s

/-- Number of accelerating step-function calls (calls that raise `k`) among
the first `n` calls. -/
def accelCount (kmax : Nat) : Nat → AccelStepper → Nat
  | 0, _ => 0
  | n + 1, s =>
      (if s.k < ((runE kmax s).1).k then 1 else 0) + accelCount kmax n (runE kmax s).1

/-- Number of decelerating step-function calls (calls that lower `k`) among
the first `n` calls. -/
def decelCount (kmax : Nat) : Nat → AccelStepper → Nat
  | 0, _ => 0
  | n + 1, s =>
      (if ((runE kmax s).1).k < s.k then 1 else 0) + decelCount kmax n (runE kmax s).1

/-- Largest speed quantum attained along the first `n` step-function calls. -/
def peakK (kmax : Nat) : Nat → AccelStepper → Nat
  | 0, s => s.k
  | n + 1, s => max s.k (peakK kmax n (runE kmax s).1)

/-- Square of the instantaneous commanded speed, in (steps per second)
squared: `v ^ 2 = 2 * a * k` with the shipped acceleration. -/
def speedSq (s : AccelStepper) : ℚ := 2 * DEFAULT_ACCELERATION * s.k

end AccelStepper

open AccelStepper in
/-- The stepper state at power-on: position 0, target 0, at rest. -/
def initialStepper : AccelStepper := ⟨0, 0, 0⟩

/-- `moveMotorSequence()` of the AccelStepper sketch: log, move to
`stepsPerRevolution`, log, `delay(3000)`, log, move back to `0`.  Returns the
final stepper state and the emitted event trace. -/
def moveMotorSequence (kmax : Nat) (s : AccelStepper) : AccelStepper × List Event :=
  (AccelStepper.runToTarget kmax
     (((AccelStepper.runToTarget kmax (s.moveTo stepsPerRevolution)).1).moveTo 0)).1
  |> fun sf =>
  (sf,
   Event.log msgMoving
     :: (AccelStepper.runToTarget kmax (s.moveTo stepsPerRevolution)).2
     ++ Event.log msgWaiting
     :: Event.dwell dwellMs
     :: Event.log msgReturning
     :: (AccelStepper.runToTarget kmax
          (((AccelStepper.runToTarget kmax (s.moveTo stepsPerRevolution)).1).moveTo 0)).2)

/-- One iteration of `loop()` in which a byte is available: read the byte; if
it is `M`, log, run the sequence, log; otherwise do nothing. -/
def loop (kmax : Nat) (s : AccelStepper) (command : Char) : AccelStepper × List Event :=
  if command = 'M' then
    ((moveMotorSequence kmax s).1,
     Event.log msgReceived :: (moveMotorSequence kmax s).2 ++ [Event.log msgComplete])
  else (s, [])

/-- Successive `loop()` iterations consuming the available serial bytes one at
a time, concatenating the emitted events. -/
def processSerial (kmax : Nat) (s : AccelStepper) : List Char → AccelStepper × List Event
  | [] => (s, [])
  | b :: rest =>
      ((processSerial kmax (loop kmax s b).1 rest).1,
       (loop kmax s b).2 ++ (processSerial kmax (loop kmax s b).1 rest).2)

/-- The per-byte blocks of events: the `i`-th block is everything emitted by
the `loop()` iteration that read the `i`-th byte. -/
def dispatchBlocks (kmax : Nat) (s : AccelStepper) : List Char → List (List Event)
  | [] => []
  | b :: rest => (loop kmax s b).2 :: dispatchBlocks kmax (loop kmax s b).1 rest

/-- Number of sequence executions recorded in a trace, counted by the
"Moving to target..." line each execution prints exactly once. -/
def seqStarts (tr : List Event) : Nat :=
  tr.countP fun e => decide (e = Event.log msgMoving)

/-- Number of "M received" dispatcher lines in a trace. -/
def countReceived (tr : List Event) : Nat :=
  tr.countP fun e => decide (e = Event.log msgReceived)

/-- Number of "Sequence complete." dispatcher lines in a trace. -/
def countComplete (tr : List Event) : Nat :=
  tr.countP fun e => decide (e = Event.log msgComplete)

/-- Whether an event is the blocking dwell. -/
def isDwell : Event → Bool
  | Event.dwell _ => true
  | _ => false

/-- The motion-profile configuration held by the stepper object
(`maxSpeed`, `acceleration`). -/
structure MotionConfig where
  maxSpeed : ℚ
  acceleration : ℚ
deriving DecidableEq, Repr

/-- Modelled from the spec: `stepper.setMaxSpeed(v)` stores the given value.
Per spec section 7, zero or negative configuration values are undefined
behavior in the source — there is no validation, rejection or clamping — so
the setter is value-preserving. -/
def setMaxSpeed (c : MotionConfig) (v : ℚ) : MotionConfig :=
  { c with maxSpeed := v }

/-- Modelled from the spec: `stepper.setAcceleration(v)` stores the given
value, with no validation (see `setMaxSpeed`). -/
def setAcceleration (c : MotionConfig) (v : ℚ) : MotionConfig :=
  { c with acceleration := v }

/-- `setup()`'s effect on the motion configuration: store the two shipped
constants, whatever the configuration held before. -/
def setup (c : MotionConfig) : MotionConfig :=
  setAcceleration (setMaxSpeed c DEFAULT_MAX_SPEED) DEFAULT_ACCELERATION

namespace Fallback

/-- `const int stepsPerRevolution = 1536` of the fallback sketch. -/
def stepsPerRevolution : Int := 1536

/-- Modelled from the spec: `myStepper.step(n)` of the built-in Stepper
library (fixed-speed mode, library body not in the repository) blocks while
emitting `|n|` step pulses in the direction of the sign of `n`, advancing the
position by `n`. -/
def step (pos : Int) (n : Int) : Int × List Event :=
  (pos + n, List.replicate n.natAbs (Event.stepPulse (if 0 < n then 1 else -1)))

/-- `moveMotorSequence()` of the fallback sketch: log, step forward one
revolution, log, `delay(3000)`, log, step back one revolution. -/
def moveMotorSequence (pos : Int) : Int × List Event :=
  ((step (step pos stepsPerRevolution).1 (-stepsPerRevolution)).1,
   Event.log msgMoving
     :: (step pos stepsPerRevolution).2
     ++ Event.log msgWaiting
     :: Event.dwell dwellMs
     :: Event.log msgReturning
     :: (step (step pos stepsPerRevolution).1 (-stepsPerRevolution)).2)

/-- One iteration of the fallback sketch's `loop()` with a byte available. -/
def loop (pos : Int) (command : Char) : Int × List Event :=
  if command = 'M' then
    ((moveMotorSequence pos).1,
     Event.log msgReceived :: (moveMotorSequence pos).2 ++ [Event.log msgComplete])
  else (pos, [])

/-- Successive fallback `loop()` iterations over the available bytes. -/
def processSerial (pos : Int) : List Char → Int × List Event
  | [] => (pos, [])
  | b :: rest =>
      ((processSerial (loop pos b).1 rest).1,
       (loop pos b).2 ++ (processSerial (loop pos b).1 rest).2)

end Fallback

open AccelStepper

lemma runE_of_done (kmax : Nat) (s : AccelStepper) (h : s.targetStep - s.currentStep = 0) :
    runE kmax s = (s, []) := by
  simp [runE, h]

lemma runE_target (kmax : Nat) (s : AccelStepper) :
    ((runE kmax s).1).targetStep = s.targetStep := by
  simp only [runE]
  split_ifs <;> rfl

lemma runE_dist (kmax : Nat) (s : AccelStepper) :
    ((runE kmax s).1).distanceToGo.natAbs = s.distanceToGo.natAbs - 1 := by
  simp only [runE, distanceToGo]
  split_ifs <;> simp_all <;> omega

lemma runE_k_le (kmax : Nat) (s : AccelStepper) (h : s.k ≤ kmax) :
    ((runE kmax s).1).k ≤ kmax := by
  simp only [runE]
  split_ifs <;> simp_all <;> omega

lemma runE_k_succ_le (kmax : Nat) (s : AccelStepper) :
    ((runE kmax s).1).k ≤ s.k + 1 := by
  simp only [runE]
  split_ifs <;> simp_all <;> omega

lemma runE_k_le_dist (kmax : Nat) (s : AccelStepper)
    (h : s.k ≤ s.distanceToGo.natAbs) :
    ((runE kmax s).1).k ≤ ((runE kmax s).1).distanceToGo.natAbs := by
  simp only [runE, distanceToGo] at *
  split_ifs <;> simp_all <;> omega

lemma runE_k_change (kmax : Nat) (s : AccelStepper) (h : s.k ≤ kmax) :
    ((runE kmax s).1).k = s.k + 1 ∨ ((runE kmax s).1).k = s.k ∨
      ((runE kmax s).1).k + 1 = s.k := by
  simp only [runE]
  split_ifs <;> simp_all <;> omega

lemma runLoop_target (kmax : Nat) :
    ∀ (n : Nat) (s : AccelStepper), ((runLoop kmax n s).1).targetStep = s.targetStep
  | 0, s => rfl
  | n + 1, s => by
      have := runLoop_target kmax n (runE kmax s).1
      simpa [runLoop, runE_target] using this

lemma runLoop_dist (kmax : Nat) :
    ∀ (n : Nat) (s : AccelStepper),
      ((runLoop kmax n s).1).distanceToGo.natAbs = s.distanceToGo.natAbs - n
  | 0, s => by simp [runLoop]
  | n + 1, s => by
      have ih := runLoop_dist kmax n (runE kmax s).1
      have hstep := runE_dist kmax s
      simp only [runLoop]
      omega

lemma runLoop_k_le (kmax : Nat) :
    ∀ (n : Nat) (s : AccelStepper), s.k ≤ kmax → ((runLoop kmax n s).1).k ≤ kmax
  | 0, s, h => h
  | n + 1, s, h => by
      have ih := runLoop_k_le kmax n (runE kmax s).1 (runE_k_le kmax s h)
      simpa [runLoop] using ih

lemma runLoop_k_le_dist (kmax : Nat) :
    ∀ (n : Nat) (s : AccelStepper), s.k ≤ s.distanceToGo.natAbs →
      ((runLoop kmax n s).1).k ≤ s.distanceToGo.natAbs - n
  | 0, s, h => by simpa [runLoop] using h
  | n + 1, s, h => by
      have hinv := runE_k_le_dist kmax s h
      have ih := runLoop_k_le_dist kmax n (runE kmax s).1 hinv
      have hstep := runE_dist kmax s
      simp only [runLoop]
      omega

lemma runLoop_add (kmax : Nat) :
    ∀ (a b : Nat) (s : AccelStepper),
      (runLoop kmax (a + b) s).1 = (runLoop kmax b (runLoop kmax a s).1).1
  | 0, b, s => by simp [runLoop]
  | a + 1, b, s => by
      have ih := runLoop_add kmax a b (runE kmax s).1
      have : a + 1 + b = (a + b) + 1 := by omega
      rw [this]
      simpa [runLoop] using ih

lemma runLoop_pulses (kmax : Nat) :
    ∀ (n : Nat) (s : AccelStepper), ∀ e ∈ (runLoop kmax n s).2, ∃ dr, e = Event.stepPulse dr
  | 0, s => by simp [runLoop]
  | n + 1, s => by
      intro e he
      simp only [runLoop, List.mem_append] at he
      rcases he with he | he
      · revert he
        simp only [runE]
        split_ifs <;> simp_all
      · exact runLoop_pulses kmax n (runE kmax s).1 e he

lemma runLoop_trace_pos (kmax : Nat) :
    ∀ (n : Nat) (s : AccelStepper), s.distanceToGo = (n : Int) →
      (runLoop kmax n s).2 = List.replicate n (Event.stepPulse 1)
  | 0, s, _ => by simp [runLoop]
  | n + 1, s, h => by
      have hne : ¬ (s.targetStep - s.currentStep = 0) := by
        simp only [distanceToGo] at h; omega
      have hpos : 0 < s.targetStep - s.currentStep := by
        simp only [distanceToGo] at h; omega
      have hnext : ((runE kmax s).1).distanceToGo = (n : Int) := by
        simp only [runE, distanceToGo] at *
        split_ifs <;> simp_all <;> omega
      have ih := runLoop_trace_pos kmax n (runE kmax s).1 hnext
      have htr : (runE kmax s).2 = [Event.stepPulse 1] := by
        simp only [runE]
        split_ifs <;> simp_all
      simp [runLoop, htr, ih, List.replicate_succ]

lemma runLoop_trace_neg (kmax : Nat) :
    ∀ (n : Nat) (s : AccelStepper), s.distanceToGo = -(n : Int) →
      (runLoop kmax n s).2 = List.replicate n (Event.stepPulse (-1))
  | 0, s, _ => by simp [runLoop]
  | n + 1, s, h => by
      have hne : ¬ (s.targetStep - s.currentStep = 0) := by
        simp only [distanceToGo] at h; omega
      have hneg : ¬ 0 < s.targetStep - s.currentStep := by
        simp only [distanceToGo] at h; omega
      have hnext : ((runE kmax s).1).distanceToGo = -(n : Int) := by
        simp only [runE, distanceToGo] at *
        split_ifs <;> simp_all <;> omega
      have ih := runLoop_trace_neg kmax n (runE kmax s).1 hnext
      have htr : (runE kmax s).2 = [Event.stepPulse (-1)] := by
        simp only [runE]
        split_ifs <;> simp_all
      simp [runLoop, htr, ih, List.replicate_succ]

lemma runToTarget_pos (kmax : Nat) (s : AccelStepper) :
    ((runToTarget kmax s).1).currentStep = s.targetStep ∧
      ((runToTarget kmax s).1).targetStep = s.targetStep ∧
      ((runToTarget kmax s).1).distanceToGo = 0 := by
  have hd := runLoop_dist kmax s.distanceToGo.natAbs s
  have ht := runLoop_target kmax s.distanceToGo.natAbs s
  simp only [runToTarget] at *
  refine ⟨?_, ht, ?_⟩ <;> simp only [distanceToGo] at * <;> omega

lemma runToTarget_k (kmax : Nat) (s : AccelStepper) (h : s.k ≤ s.distanceToGo.natAbs) :
    ((runToTarget kmax s).1).k = 0 := by
  have := runLoop_k_le_dist kmax s.distanceToGo.natAbs s h
  simp only [runToTarget] at *
  omega

lemma runToTarget_out (kmax : Nat) :
    runToTarget kmax (⟨0, stepsPerRevolution, 0⟩ : AccelStepper) =
      (⟨stepsPerRevolution, stepsPerRevolution, 0⟩, List.replicate 1536 (Event.stepPulse 1)) := by
  have hd : ((⟨0, stepsPerRevolution, 0⟩ : AccelStepper)).distanceToGo = ((1536 : Nat) : Int) := by
    simp [distanceToGo, stepsPerRevolution]
  have hstate : (runToTarget kmax (⟨0, stepsPerRevolution, 0⟩ : AccelStepper)).1 =
      ⟨stepsPerRevolution, stepsPerRevolution, 0⟩ := by
    obtain ⟨h1, h2, -⟩ := runToTarget_pos kmax ⟨0, stepsPerRevolution, 0⟩
    have hk := runToTarget_k kmax ⟨0, stepsPerRevolution, 0⟩ (by simp [distanceToGo])
    rcases hste : (runToTarget kmax (⟨0, stepsPerRevolution, 0⟩ : AccelStepper)).1 with ⟨a, b, c⟩
    rw [hste] at h1 h2 hk
    simp_all
  have htr : (runToTarget kmax (⟨0, stepsPerRevolution, 0⟩ : AccelStepper)).2 =
      List.replicate 1536 (Event.stepPulse 1) := by
    have hn : ((⟨0, stepsPerRevolution, 0⟩ : AccelStepper)).distanceToGo.natAbs = 1536 := by
      simp [distanceToGo, stepsPerRevolution]
    simp only [runToTarget, hn]
    exact runLoop_trace_pos kmax 1536 _ hd
  rw [Prod.ext_iff]
  exact ⟨hstate, htr⟩

lemma runToTarget_ret (kmax : Nat) :
    runToTarget kmax (⟨stepsPerRevolution, 0, 0⟩ : AccelStepper) =
      (⟨0, 0, 0⟩, List.replicate 1536 (Event.stepPulse (-1))) := by
  have hd : ((⟨stepsPerRevolution, 0, 0⟩ : AccelStepper)).distanceToGo = -((1536 : Nat) : Int) := by
    simp [distanceToGo, stepsPerRevolution]
  have hstate : (runToTarget kmax (⟨stepsPerRevolution, 0, 0⟩ : AccelStepper)).1 =
      (⟨0, 0, 0⟩ : AccelStepper) := by
    obtain ⟨h1, h2, -⟩ := runToTarget_pos kmax ⟨stepsPerRevolution, 0, 0⟩
    have hk := runToTarget_k kmax ⟨stepsPerRevolution, 0, 0⟩
      (by simp [distanceToGo, stepsPerRevolution])
    rcases hste : (runToTarget kmax (⟨stepsPerRevolution, 0, 0⟩ : AccelStepper)).1 with ⟨a, b, c⟩
    rw [hste] at h1 h2 hk
    simp_all
  have htr : (runToTarget kmax (⟨stepsPerRevolution, 0, 0⟩ : AccelStepper)).2 =
      List.replicate 1536 (Event.stepPulse (-1)) := by
    have hn : ((⟨stepsPerRevolution, 0, 0⟩ : AccelStepper)).distanceToGo.natAbs = 1536 := by
      simp [distanceToGo, stepsPerRevolution]
    simp only [runToTarget, hn]
    exact runLoop_trace_neg kmax 1536 _ hd
  rw [Prod.ext_iff]
  exact ⟨hstate, htr⟩

lemma seq_canonical (kmax : Nat) :
    moveMotorSequence kmax initialStepper =
      (initialStepper,
       Event.log msgMoving :: List.replicate 1536 (Event.stepPulse 1)
         ++ Event.log msgWaiting :: Event.dwell dwellMs :: Event.log msgReturning
         :: List.replicate 1536 (Event.stepPulse (-1))) := by
  have hmv : initialStepper.moveTo stepsPerRevolution = (⟨0, stepsPerRevolution, 0⟩ : AccelStepper) := rfl
  have hmv2 : ((⟨stepsPerRevolution, stepsPerRevolution, 0⟩ : AccelStepper)).moveTo 0 =
      (⟨stepsPerRevolution, 0, 0⟩ : AccelStepper) := rfl
  simp only [moveMotorSequence, hmv, runToTarget_out, hmv2, runToTarget_ret]
  rfl

lemma fb_seq_canonical :
    Fallback.moveMotorSequence 0 =
      (0,
       Event.log msgMoving :: List.replicate 1536 (Event.stepPulse 1)
         ++ Event.log msgWaiting :: Event.dwell dwellMs :: Event.log msgReturning
         :: List.replicate 1536 (Event.stepPulse (-1))) := by
  simp only [Fallback.moveMotorSequence, Fallback.step, Fallback.stepsPerRevolution]
  norm_num

lemma loop_eq_fb (kmax : Nat) (b : Char) :
    (loop kmax initialStepper b).2 = (Fallback.loop 0 b).2 ∧
      (loop kmax initialStepper b).1 = initialStepper ∧ (Fallback.loop 0 b).1 = 0 := by
  by_cases hb : b = 'M'
  · subst hb
    simp only [loop, Fallback.loop, if_pos rfl, seq_canonical, fb_seq_canonical]
    exact ⟨rfl, rfl, rfl⟩
  · simp [loop, Fallback.loop, hb]

lemma processSerial_eq_fb (kmax : Nat) :
    ∀ bytes : List Char,
      (processSerial kmax initialStepper bytes).2 = (Fallback.processSerial 0 bytes).2 ∧
        (processSerial kmax initialStepper bytes).1 = initialStepper ∧
        (Fallback.processSerial 0 bytes).1 = 0
  | [] => ⟨rfl, rfl, rfl⟩
  | b :: rest => by
      obtain ⟨ht, ha, hf⟩ := loop_eq_fb kmax b
      obtain ⟨iht, iha, ihf⟩ := processSerial_eq_fb kmax rest
      simp only [processSerial, Fallback.processSerial, ha, hf]
      exact ⟨by rw [ht, iht], iha, ihf⟩

lemma countP_log_runToTarget (kmax : Nat) (s : AccelStepper) (m : String) :
    ((runToTarget kmax s).2.countP fun e => decide (e = Event.log m)) = 0 := by
  refine List.countP_eq_zero.mpr ?_
  intro e he
  obtain ⟨dr, rfl⟩ := runLoop_pulses kmax s.distanceToGo.natAbs s e he
  simp

lemma countP_dwell_runToTarget (kmax : Nat) (s : AccelStepper) :
    ((runToTarget kmax s).2.filter isDwell) = [] := by
  refine List.filter_eq_nil_iff.mpr ?_
  intro e he
  obtain ⟨dr, rfl⟩ := runLoop_pulses kmax s.distanceToGo.natAbs s e he
  simp [isDwell]

lemma moveMotorSequence_trace (kmax : Nat) (s : AccelStepper) :
    (moveMotorSequence kmax s).2 =
      Event.log msgMoving
        :: (runToTarget kmax (s.moveTo stepsPerRevolution)).2
        ++ Event.log msgWaiting
        :: Event.dwell dwellMs
        :: Event.log msgReturning
        :: (runToTarget kmax
             (((runToTarget kmax (s.moveTo stepsPerRevolution)).1).moveTo 0)).2 := rfl

lemma seqStarts_seq (kmax : Nat) (s : AccelStepper) :
    seqStarts (moveMotorSequence kmax s).2 = 1 := by
  simp only [seqStarts, moveMotorSequence_trace, List.countP_cons, List.countP_append,
    countP_log_runToTarget]
  simp only [List.countP_nil, decide_eq_true_eq]
  simp
  exact ⟨by decide, by decide⟩

lemma countP_log_seq (kmax : Nat) (s : AccelStepper) (m : String)
    (h1 : ¬ msgMoving = m) (h2 : ¬ msgWaiting = m) (h3 : ¬ msgReturning = m) :
    ((moveMotorSequence kmax s).2.countP fun e => decide (e = Event.log m)) = 0 := by
  simp only [moveMotorSequence_trace, List.countP_cons, List.countP_append,
    countP_log_runToTarget]
  simp [h1, h2, h3]

lemma seqStarts_loop (kmax : Nat) (s : AccelStepper) (b : Char) :
    seqStarts (loop kmax s b).2 = if b = 'M' then 1 else 0 := by
  by_cases hb : b = 'M'
  · subst hb
    rw [if_pos rfl]
    have h := seqStarts_seq kmax s
    simp only [seqStarts] at h ⊢
    simp [loop, List.countP_cons, List.countP_append, h]
    decide
  · simp [loop, hb, seqStarts]

lemma countReceived_loop (kmax : Nat) (s : AccelStepper) (b : Char) :
    countReceived (loop kmax s b).2 = if b = 'M' then 1 else 0 := by
  by_cases hb : b = 'M'
  · subst hb
    rw [if_pos rfl]
    have h := countP_log_seq kmax s msgReceived (by decide) (by decide) (by decide)
    simp only [countReceived]
    simp [loop, List.countP_cons, List.countP_append, h]
    decide
  · simp [loop, hb, countReceived]

lemma countComplete_loop (kmax : Nat) (s : AccelStepper) (b : Char) :
    countComplete (loop kmax s b).2 = if b = 'M' then 1 else 0 := by
  by_cases hb : b = 'M'
  · subst hb
    rw [if_pos rfl]
    have h := countP_log_seq kmax s msgComplete (by decide) (by decide) (by decide)
    simp only [countComplete]
    simp [loop, List.countP_cons, List.countP_append, h]
    decide
  · simp [loop, hb, countComplete]

lemma seqStarts_processSerial (kmax : Nat) :
    ∀ (bytes : List Char) (s : AccelStepper),
      seqStarts (processSerial kmax s bytes).2 = bytes.countP fun b => decide (b = 'M')
  | [], s => by simp [processSerial, seqStarts]
  | b :: rest, s => by
      by_cases hb : b = 'M'
      · subst hb
        have ih := seqStarts_processSerial kmax rest (loop kmax s 'M').1
        have hl := seqStarts_loop kmax s 'M'
        simp only [processSerial, seqStarts, List.countP_append, List.countP_cons] at *
        simp at hl ⊢
        omega
      · have ih := seqStarts_processSerial kmax rest (loop kmax s b).1
        have hl := seqStarts_loop kmax s b
        rw [if_neg hb] at hl
        simp only [processSerial, seqStarts, List.countP_append, List.countP_cons] at *
        simp [hb]
        omega

lemma processSerial_blocks (kmax : Nat) :
    ∀ (bytes : List Char) (s : AccelStepper),
      (processSerial kmax s bytes).2 = (dispatchBlocks kmax s bytes).flatten
  | [], _ => rfl
  | b :: rest, s => by
      have ih := processSerial_blocks kmax rest (loop kmax s b).1
      simp [processSerial, dispatchBlocks, ih]

lemma dispatchBlocks_length (kmax : Nat) :
    ∀ (bytes : List Char) (s : AccelStepper),
      (dispatchBlocks kmax s bytes).length = bytes.length
  | [], _ => rfl
  | b :: rest, s => by
      have ih := dispatchBlocks_length kmax rest (loop kmax s b).1
      simp [dispatchBlocks, ih]

lemma dispatchBlocks_mem (kmax : Nat) :
    ∀ (bytes : List Char) (s : AccelStepper) (blk : List Event),
      blk ∈ dispatchBlocks kmax s bytes →
        countReceived blk ≤ 1 ∧ countReceived blk = countComplete blk
  | [], _, blk => by simp [dispatchBlocks]
  | b :: rest, s, blk => by
      intro hmem
      simp only [dispatchBlocks, List.mem_cons] at hmem
      rcases hmem with rfl | hmem
      · rw [countReceived_loop, countComplete_loop]
        split_ifs <;> omega
      · exact dispatchBlocks_mem kmax rest (loop kmax s b).1 blk hmem

lemma runE_k_lb (kmax : Nat) (s : AccelStepper) (h : s.k ≤ kmax) :
    s.k ≤ ((runE kmax s).1).k + 1 := by
  simp only [runE]
  split_ifs <;> simp_all <;> omega

lemma k_telescope (kmax : Nat) :
    ∀ (n : Nat) (s : AccelStepper), s.k ≤ kmax →
      ((runLoop kmax n s).1).k + decelCount kmax n s = s.k + accelCount kmax n s
  | 0, s, _ => by simp [runLoop, accelCount, decelCount]
  | n + 1, s, h => by
      have ih := k_telescope kmax n (runE kmax s).1 (runE_k_le kmax s h)
      have hub := runE_k_succ_le kmax s
      have hlb := runE_k_lb kmax s h
      simp only [runLoop, accelCount, decelCount]
      split_ifs <;> omega

lemma peakK_ge_self (kmax : Nat) :
    ∀ (n : Nat) (s : AccelStepper), s.k ≤ peakK kmax n s
  | 0, _ => Nat.le_refl _
  | n + 1, s => by simp [peakK]

lemma peakK_le (kmax : Nat) :
    ∀ (n : Nat) (s : AccelStepper), s.k ≤ kmax → peakK kmax n s ≤ kmax
  | 0, _, h => h
  | n + 1, s, h => by
      have ih := peakK_le kmax n (runE kmax s).1 (runE_k_le kmax s h)
      simp only [peakK]
      omega

lemma peakK_ge (kmax : Nat) :
    ∀ (n i : Nat) (s : AccelStepper), i ≤ n →
      ((runLoop kmax i s).1).k ≤ peakK kmax n s
  | n, 0, s, _ => by simpa [runLoop] using peakK_ge_self kmax n s
  | 0, i + 1, s, h => by omega
  | n + 1, i + 1, s, h => by
      have ih := peakK_ge kmax n i (runE kmax s).1 (by omega)
      simp only [runLoop, peakK]
      exact le_trans ih (le_max_right _ _)

lemma peakK_two_mul (kmax : Nat) :
    ∀ (n : Nat) (s : AccelStepper), s.k ≤ s.distanceToGo.natAbs →
      2 * peakK kmax n s ≤ s.distanceToGo.natAbs + s.k
  | 0, s, h => by simp only [peakK]; omega
  | n + 1, s, h => by
      have hinv := runE_k_le_dist kmax s h
      have ih := peakK_two_mul kmax n (runE kmax s).1 hinv
      have hub := runE_k_succ_le kmax s
      have hd := runE_dist kmax s
      simp only [peakK]
      rcases Nat.eq_zero_or_pos s.distanceToGo.natAbs with h0 | h0
      · have : (runE kmax s).1 = s := by
          have : s.targetStep - s.currentStep = 0 := by
            simp only [distanceToGo] at h0; omega
          simp [runE_of_done kmax s this]
        rw [this] at ih ⊢
        omega
      · omega

lemma runToTarget_pulses (kmax : Nat) (s : AccelStepper) :
    ∀ e ∈ (runToTarget kmax s).2, ∃ dr : Int, e = Event.stepPulse dr := by
  simp only [runToTarget]
  exact runLoop_pulses kmax s.distanceToGo.natAbs s

lemma runE_accel (kmax : Nat) (c t : Int) (k : Nat) (hpos : 0 < t - c)
    (hacc : k < (t - (c + 1)).natAbs) (hk : k < kmax) :
    runE kmax ⟨c, t, k⟩ = (⟨c + 1, t, k + 1⟩, [Event.stepPulse 1]) := by
  simp only [runE]
  rw [if_neg (show ¬ (t - c = 0) by omega), if_pos hpos]
  simp only [if_pos hacc]
  rw [Nat.min_eq_left (by omega)]

lemma accel_phase (kmax D : Nat) (hD : 2 * kmax ≤ D) :
    ∀ i, i ≤ kmax →
      (runLoop kmax i (⟨0, (D : Int), 0⟩ : AccelStepper)).1 = ⟨(i : Int), (D : Int), i⟩
  | 0, _ => by simp [runLoop]
  | i + 1, hi => by
      have ih := accel_phase kmax D hD i (by omega)
      have hadd := runLoop_add kmax i 1 (⟨0, (D : Int), 0⟩ : AccelStepper)
      rw [hadd, ih]
      have hstep := runE_accel kmax (i : Int) (D : Int) i
        (by omega) (by omega) (by omega)
      simp only [runLoop, hstep]
      simp only [AccelStepper.mk.injEq]
      refine ⟨by push_cast; ring, trivial, trivial⟩

/-- Claim C1: a run of the motion sequence starting with tracked position 0
first sets the target to `stepsPerRevolution`, then sets the target back to
`0`, and when the sequence returns the tracked position is exactly 0 again. -/
theorem C1_round_trip (kmax : Nat) (s : AccelStepper) (h : s.currentStep = 0) :
    (s.moveTo stepsPerRevolution).targetStep = stepsPerRevolution ∧
      (((runToTarget kmax (s.moveTo stepsPerRevolution)).1).moveTo 0).targetStep = 0 ∧
      ((moveMotorSequence kmax s).1).currentStep = 0 := by
  refine ⟨rfl, rfl, ?_⟩
  have h2 := runToTarget_pos kmax
    (((runToTarget kmax (s.moveTo stepsPerRevolution)).1).moveTo 0)
  exact h2.1

/-- Witness for C1 at the power-on state with the shipped configuration. -/
theorem C1_round_trip_witness :
    initialStepper.currentStep = 0 ∧
      ((moveMotorSequence KMAX initialStepper).1).currentStep = 0 :=
  ⟨rfl, (C1_round_trip KMAX initialStepper rfl).2.2⟩

/-- Claim C2: the motion sequence is invoked if and only if the byte read is
the character M; any other byte causes no action; over a stream, the number of
sequence executions equals the number of M bytes, so a stream with exactly one
M runs exactly one sequence. -/
theorem C2_command_filtering (kmax : Nat) (s : AccelStepper) (bytes : List Char) :
    (∀ b : Char, b ≠ 'M' → loop kmax s b = (s, [])) ∧
      seqStarts (loop kmax s 'M').2 = 1 ∧
      seqStarts (processSerial kmax s bytes).2 = (bytes.countP fun b => decide (b = 'M')) ∧
      ((bytes.countP fun b => decide (b = 'M')) = 1 →
        seqStarts (processSerial kmax s bytes).2 = 1) := by
  refine ⟨?_, ?_, seqStarts_processSerial kmax bytes s, ?_⟩
  · intro b hb
    simp [loop, hb]
  · have h := seqStarts_loop kmax s 'M'
    simpa using h
  · intro h1
    rw [seqStarts_processSerial kmax bytes s, h1]

/-- Witness for C2: a non-M byte is ignored, and a stream with one M among
noise runs exactly one sequence. -/
theorem C2_command_filtering_witness :
    loop KMAX initialStepper 'x' = (initialStepper, []) ∧
      seqStarts (processSerial KMAX initialStepper ['x', 'M', 'z']).2 = 1 :=
  ⟨(C2_command_filtering KMAX initialStepper []).1 'x' (by decide),
   (C2_command_filtering KMAX initialStepper ['x', 'M', 'z']).2.2.2 (by decide)⟩

/-- Claim C3: every invocation of the sequence performs the three phases in
fixed order — status line, outbound steps, status line, dwell, status line,
return steps — and the dispatcher brackets it with its own two status
lines. -/
theorem C3_three_phase_order (kmax : Nat) (s : AccelStepper) :
    (∃ t1 t2 : List Event,
      (moveMotorSequence kmax s).2 =
          Event.log msgMoving :: t1
            ++ Event.log msgWaiting :: Event.dwell dwellMs :: Event.log msgReturning :: t2 ∧
        (∀ e ∈ t1, ∃ dr : Int, e = Event.stepPulse dr) ∧
        (∀ e ∈ t2, ∃ dr : Int, e = Event.stepPulse dr)) ∧
      (loop kmax s 'M').2 =
        Event.log msgReceived :: (moveMotorSequence kmax s).2 ++ [Event.log msgComplete] := by
  constructor
  · exact ⟨_, _, moveMotorSequence_trace kmax s,
      runToTarget_pulses kmax (s.moveTo stepsPerRevolution),
      runToTarget_pulses kmax
        (((runToTarget kmax (s.moveTo stepsPerRevolution)).1).moveTo 0)⟩
  · simp [loop]

/-- Witness for C3: the dispatcher bracketing at the power-on state. -/
theorem C3_three_phase_order_witness :
    (loop KMAX initialStepper 'M').2 =
      Event.log msgReceived :: (moveMotorSequence KMAX initialStepper).2
        ++ [Event.log msgComplete] :=
  (C3_three_phase_order KMAX initialStepper).2

/-- Claim C4: during a single move the absolute remaining distance is
non-increasing over successive step-function calls, the busy-wait loop
reports distance 0 after exactly `|distanceToGo|` calls, and the busy-wait
terminates with zero remaining distance. -/
theorem C4_monotonic_convergence (kmax : Nat) (s : AccelStepper) (i j : Nat)
    (hij : i ≤ j) :
    ((runLoop kmax j s).1).distanceToGo.natAbs ≤
        ((runLoop kmax i s).1).distanceToGo.natAbs ∧
      ((runLoop kmax s.distanceToGo.natAbs s).1).distanceToGo = 0 ∧
      ((runToTarget kmax s).1).distanceToGo = 0 := by
  have hi := runLoop_dist kmax i s
  have hj := runLoop_dist kmax j s
  have hful := runLoop_dist kmax s.distanceToGo.natAbs s
  exact ⟨by omega, by omega, (runToTarget_pos kmax s).2.2⟩

/-- Witness for C4 on a short concrete move. -/
theorem C4_monotonic_convergence_witness :
    ((runLoop 400 2 (⟨0, 3, 0⟩ : AccelStepper)).1).distanceToGo.natAbs ≤
      ((runLoop 400 1 (⟨0, 3, 0⟩ : AccelStepper)).1).distanceToGo.natAbs :=
  (C4_monotonic_convergence 400 ⟨0, 3, 0⟩ 1 2 (by decide)).1

/-- Claim C5: at every point during any move the speed quantum stays at or
below `KMAX`, so the instantaneous commanded speed never exceeds the
configured `maxSpeed` of 400 steps per second (stated on squares:
`speed ^ 2 = 2 * acceleration * k ≤ maxSpeed ^ 2`). -/
theorem C5_speed_bound (n : Nat) (s : AccelStepper) (h : s.k ≤ KMAX) :
    ((runLoop KMAX n s).1).k ≤ KMAX ∧
      speedSq ((runLoop KMAX n s).1) ≤ DEFAULT_MAX_SPEED ^ 2 := by
  have hk := runLoop_k_le KMAX n s h
  refine ⟨hk, ?_⟩
  simp only [KMAX] at hk
  have hq : (((runLoop KMAX n s).1).k : ℚ) ≤ 400 := by exact_mod_cast hk
  simp only [speedSq, DEFAULT_ACCELERATION, DEFAULT_MAX_SPEED]
  nlinarith

/-- Witness for C5 on a short concrete move from rest. -/
theorem C5_speed_bound_witness :
    speedSq ((runLoop KMAX 3 (⟨0, 5, 0⟩ : AccelStepper)).1) ≤ DEFAULT_MAX_SPEED ^ 2 :=
  (C5_speed_bound 3 ⟨0, 5, 0⟩ (by decide)).2

/-- Claim C6: a move from rest long enough to reach `maxSpeed`
(`2 * kmax ≤ D`) has equally many accelerating and decelerating steps and
attains the peak quantum `kmax` (trapezoidal profile); a shorter move stays
strictly below `kmax` (triangular profile, peak speed strictly below
`maxSpeed`). -/
theorem C6_ramp_symmetry (kmax D : Nat) :
    (2 * kmax ≤ D →
      accelCount kmax D (⟨0, (D : Int), 0⟩ : AccelStepper) =
          decelCount kmax D (⟨0, (D : Int), 0⟩ : AccelStepper) ∧
        peakK kmax D (⟨0, (D : Int), 0⟩ : AccelStepper) = kmax) ∧
      (D < 2 * kmax → peakK kmax D (⟨0, (D : Int), 0⟩ : AccelStepper) < kmax) := by
  have hdist : ((⟨0, (D : Int), 0⟩ : AccelStepper)).distanceToGo.natAbs = D := by
    simp [distanceToGo]
  constructor
  · intro hD
    constructor
    · have htel := k_telescope kmax D (⟨0, (D : Int), 0⟩ : AccelStepper) (Nat.zero_le _)
      have hk0 := runLoop_k_le_dist kmax D (⟨0, (D : Int), 0⟩ : AccelStepper)
        (by rw [hdist]; exact Nat.zero_le _)
      rw [hdist] at hk0
      simp only at htel hk0
      omega
    · have hle := peakK_le kmax D (⟨0, (D : Int), 0⟩ : AccelStepper) (Nat.zero_le _)
      have hph := accel_phase kmax D hD kmax (Nat.le_refl _)
      have hge := peakK_ge kmax D kmax (⟨0, (D : Int), 0⟩ : AccelStepper) (by omega)
      rw [hph] at hge
      simp only at hge
      omega
  · intro hD
    have h2 := peakK_two_mul kmax D (⟨0, (D : Int), 0⟩ : AccelStepper)
      (by rw [hdist]; exact Nat.zero_le _)
    rw [hdist] at h2
    simp only at h2
    omega

/-- Witness for C6: a trapezoidal move (quantum ceiling 2, distance 4) and a
triangular move (distance 3). -/
theorem C6_ramp_symmetry_witness :
    accelCount 2 4 (⟨0, (4 : Int), 0⟩ : AccelStepper) =
        decelCount 2 4 (⟨0, (4 : Int), 0⟩ : AccelStepper) ∧
      peakK 2 3 (⟨0, (3 : Int), 0⟩ : AccelStepper) < 2 :=
  ⟨(((C6_ramp_symmetry 2 4).1) (by decide)).1, ((C6_ramp_symmetry 2 3).2) (by decide)⟩

/-- Claim C7: the sequence performs exactly one dwell, of 3000 ms, located
between the outbound move and the return move. -/
theorem C7_dwell_duration (kmax : Nat) (s : AccelStepper) :
    ((moveMotorSequence kmax s).2.filter isDwell) = [Event.dwell 3000] ∧
      ∃ t1 t2 : List Event,
        (moveMotorSequence kmax s).2 =
            Event.log msgMoving :: t1
              ++ Event.log msgWaiting :: Event.dwell 3000 :: Event.log msgReturning :: t2 ∧
          t1.filter isDwell = [] ∧ t2.filter isDwell = [] := by
  have h1 := countP_dwell_runToTarget kmax (s.moveTo stepsPerRevolution)
  have h2 := countP_dwell_runToTarget kmax
    (((runToTarget kmax (s.moveTo stepsPerRevolution)).1).moveTo 0)
  constructor
  · rw [moveMotorSequence_trace]
    simp [List.filter_append, h1, h2, isDwell, dwellMs]
  · exact ⟨_, _, moveMotorSequence_trace kmax s, h1, h2⟩

/-- Witness for C7 at the power-on state with the shipped configuration. -/
theorem C7_dwell_duration_witness :
    ((moveMotorSequence KMAX initialStepper).2.filter isDwell) = [Event.dwell 3000] :=
  (C7_dwell_duration KMAX initialStepper).1

/-- Claim C9: bytes are read one per dispatcher iteration and the emitted
trace is the concatenation of one block per byte read, so a byte arriving
mid-sequence is never dispatched inside that sequence; each block contains at
most one sequence start, and every started sequence completes within its own
block. -/
theorem C9_byte_by_byte (kmax : Nat) (s : AccelStepper) (bytes : List Char) :
    (processSerial kmax s bytes).2 = (dispatchBlocks kmax s bytes).flatten ∧
      (dispatchBlocks kmax s bytes).length = bytes.length ∧
      ∀ blk ∈ dispatchBlocks kmax s bytes,
        countReceived blk ≤ 1 ∧ countReceived blk = countComplete blk :=
  ⟨processSerial_blocks kmax bytes s, dispatchBlocks_length kmax bytes s,
   fun blk h => dispatchBlocks_mem kmax bytes s blk h⟩

/-- Witness for C9: the block of a non-M byte in a concrete stream. -/
theorem C9_byte_by_byte_witness :
    countReceived (loop KMAX initialStepper 'a').2 ≤ 1 ∧
      countReceived (loop KMAX initialStepper 'a').2 =
        countComplete (loop KMAX initialStepper 'a').2 :=
  (C9_byte_by_byte KMAX initialStepper ['a', 'M']).2.2
    (loop KMAX initialStepper 'a').2 (List.mem_cons_self _ _)

/-- Claim C10: for every input byte stream the AccelStepper sketch and the
fixed-speed fallback sketch emit the same event trace (same status lines in
the same order, same 3000 ms dwell, same 1536 forward and 1536 backward step
pulses per sequence) and end with the same tracked position; the two sketches
use the same `stepsPerRevolution`. -/
theorem C10_fallback_equivalence (bytes : List Char) :
    (processSerial KMAX initialStepper bytes).2 = (Fallback.processSerial 0 bytes).2 ∧
      ((processSerial KMAX initialStepper bytes).1).currentStep =
        (Fallback.processSerial 0 bytes).1 ∧
      Fallback.stepsPerRevolution = stepsPerRevolution := by
  obtain ⟨h1, h2, h3⟩ := processSerial_eq_fb KMAX bytes
  refine ⟨h1, ?_, rfl⟩
  rw [h2, h3]
  rfl

/-- Claim C8 counterexample: the configuration setters store values
unchanged — a non-positive `maxSpeed` is neither rejected nor clamped before
reaching the motion-profile generator. -/
theorem C8_no_validation_counterexample :
    (setMaxSpeed ⟨DEFAULT_MAX_SPEED, DEFAULT_ACCELERATION⟩ (-1)).maxSpeed = -1 ∧
      ¬ (0 < (setMaxSpeed ⟨DEFAULT_MAX_SPEED, DEFAULT_ACCELERATION⟩ (-1)).maxSpeed) ∧
      (setAcceleration ⟨DEFAULT_MAX_SPEED, DEFAULT_ACCELERATION⟩ (-1)).acceleration = -1 := by
  refine ⟨rfl, ?_, rfl⟩
  norm_num [setMaxSpeed]

/-- Claim C8 (amended): the code performs no validation, but `setup`
overwrites any prior configuration with the shipped constants
`maxSpeed = 400` and `acceleration = 200`, both strictly positive, so the
shipped program never runs a move with a zero or negative setting. -/
theorem C8_shipped_config_positive (c : MotionConfig) :
    (setup c).maxSpeed = DEFAULT_MAX_SPEED ∧
      (setup c).acceleration = DEFAULT_ACCELERATION ∧
      0 < (setup c).maxSpeed ∧ 0 < (setup c).acceleration := by
  refine ⟨rfl, rfl, ?_, ?_⟩ <;>
    norm_num [setup, setMaxSpeed, setAcceleration, DEFAULT_MAX_SPEED, DEFAULT_ACCELERATION]
